import Mathlib

/- Verification development for the mssql-mcp server (bymcs/mssql-mcp).

   The definitions below are a shallow embedding of the TypeScript source
   (src/index.ts, present in the repository in its v1.0.2 and v1.0.3
   variants).  Strings are Lean `String`s, JavaScript numbers that the
   code checks with zod `.int()` are Lean `Int`s, fallible paths return
   `Except String`, and interactions with the external `mssql` driver are
   made explicit as event traces.  A few components that the repository
   documents (README, v2.0.x feature list: statement deny-list, query
   cache, auto-connection) but whose code is not part of the checked-in
   sources are modelled from the specification; each such definition is
   marked `Modelled from the spec:` in its doc comment. -/

namespace MssqlMcp

/-! ## Character classes used by the validation regexes -/

/-- Characters admitted by the identifier regex of get_table_data,
`/^[a-zA-Z0-9_]+$/` (source part_001:393): ASCII digits (48-57),
uppercase letters (65-90), lowercase letters (97-122) and underscore (95). -/
def isIdChar (c : Char) : Bool :=
  let n := c.toNat
  (decide (48 ≤ n) && decide (n ≤ 57)) ||
  (decide (65 ≤ n) && decide (n ≤ 90)) ||
  (decide (97 ≤ n) && decide (n ≤ 122)) ||
  n == 95

/-- Characters admitted by the ORDER BY item class `[\[\]a-zA-Z0-9_.]`
(source part_001:419): identifier characters plus dot (46), left
bracket (91) and right bracket (93). -/
def isOrderByChar (c : Char) : Bool :=
  let n := c.toNat
  (decide (48 ≤ n) && decide (n ≤ 57)) ||
  (decide (65 ≤ n) && decide (n ≤ 90)) ||
  (decide (97 ≤ n) && decide (n ≤ 122)) ||
  n == 95 || n == 46 || n == 91 || n == 93

/-- The ECMAScript `\s` class used by the ORDER BY regex: tab, line feed,
vertical tab, form feed, carriage return, space, no-break space, ogham
space mark, the U+2000-U+200A range, line/paragraph separators, narrow
no-break space, medium mathematical space, ideographic space and BOM. -/
def isWsChar (c : Char) : Bool :=
  let n := c.toNat
  n == 9 || n == 10 || n == 11 || n == 12 || n == 13 || n == 32 ||
  n == 160 || n == 5760 || (decide (8192 ≤ n) && decide (n ≤ 8202)) ||
  n == 8232 || n == 8233 || n == 8239 || n == 8287 || n == 12288 || n == 65279

/-! ## List and string helpers -/

/-- Whether `pat` occurs at the head of `l`. -/
def listStartsWith : List Char → List Char → Bool
  | _, [] => true
  | [], _ :: _ => false
  | c :: cs, p :: ps => c == p && listStartsWith cs ps

/-- Whether `pat` occurs as a contiguous subsequence of `l`. -/
def listContainsSeq (l pat : List Char) : Bool :=
  match l with
  | [] => listStartsWith [] pat
  | _ :: rest => listStartsWith l pat || listContainsSeq rest pat

/-- Substring test on strings (used to model `String.prototype.includes`). -/
def strContains (s pat : String) : Bool :=
  listContainsSeq s.toList pat.toList

/-- Uppercasing of a string (models `String.prototype.toUpperCase` on the
ASCII statements the deny-list is concerned with). -/
def upperStr (s : String) : String :=
  String.mk (s.toList.map Char.toUpper)

/-- Trim of leading and trailing whitespace over the `\s` class
(models `String.prototype.trim`). -/
def jsTrimChars (l : List Char) : List Char :=
  ((l.dropWhile isWsChar).reverse.dropWhile isWsChar).reverse

/-! ## IdentifierValidator: the get_table_data identifier checks -/

/-- The zod / runtime identifier test `tableNamePattern.test(name)` for
`/^[a-zA-Z0-9_]+$/`: non-empty and every character in the class. -/
def tableNamePatternTest (s : String) : Bool :=
  !s.toList.isEmpty && s.toList.all isIdChar

/-- Runtime table-name validation of the get_table_data handler
(source part_001:394-396).  On success the name is returned unchanged;
no sanitization or escaping is attempted. -/
def validateTableName (s : String) : Except String String :=
  if tableNamePatternTest s then Except.ok s
  else Except.error "Invalid table name. Only letters, numbers, and underscores are allowed."

/-- Runtime schema-name validation of the get_table_data handler
(source part_001:397-399). -/
def validateSchemaName (s : String) : Except String String :=
  if tableNamePatternTest s then Except.ok s
  else Except.error "Invalid schema name. Only letters, numbers, and underscores are allowed."

/-! ## The ORDER BY regex
`/^([\[\]a-zA-Z0-9_.]+(\s+(ASC|DESC))?)(\s*,\s*[\[\]a-zA-Z0-9_.]+(\s+(ASC|DESC))?)*$/i`
(source part_001:419), embedded as a deterministic matcher.  Maximal
munch of the item class is sound because no continuation of an item can
begin with an item character, and after whitespace a separator begins
with a comma while a direction keyword begins with A/a/D/d, so the
alternatives never overlap. -/

/-- Match the case-insensitive alternation `(ASC|DESC)` at the head of the
input, returning the remainder on success. -/
def matchDirection : List Char → Option (List Char)
  | a :: b :: c :: rest =>
    if (a == 'A' || a == 'a') && (b == 'S' || b == 's') && (c == 'C' || c == 'c') then
      some rest
    else
      match rest with
      | d :: rest2 =>
        if (a == 'D' || a == 'd') && (b == 'E' || b == 'e') && (c == 'S' || c == 's') &&
            (d == 'C' || d == 'c') then some rest2
        else none
      | [] => none
  | _ => none

/-- Continuation verdict while scanning an ORDER BY clause. -/
inductive OrderByStep where
  | accept : OrderByStep
  | reject : OrderByStep
  | more : List Char → OrderByStep
deriving DecidableEq

/-- After a direction keyword: the clause may end, or a separator
`\s*,\s*` leads to a further item. -/
def afterDirection (rest : List Char) : OrderByStep :=
  let ws := rest.takeWhile isWsChar
  let r2 := rest.dropWhile isWsChar
  match r2 with
  | [] => if ws.isEmpty then OrderByStep.accept else OrderByStep.reject
  | c :: r3 =>
    if c = ',' then OrderByStep.more (r3.dropWhile isWsChar) else OrderByStep.reject

/-- After the characters of an item: the clause may end, a separator may
lead to a further item, or whitespace may be followed by `ASC`/`DESC`. -/
def afterItem (rest : List Char) : OrderByStep :=
  let ws := rest.takeWhile isWsChar
  let r2 := rest.dropWhile isWsChar
  match r2 with
  | [] => if ws.isEmpty then OrderByStep.accept else OrderByStep.reject
  | c :: r3 =>
    if c = ',' then OrderByStep.more (r3.dropWhile isWsChar)
    else if ws.isEmpty then OrderByStep.reject
    else
      match matchDirection (c :: r3) with
      | some r4 => afterDirection r4
      | none => OrderByStep.reject

/-- Fueled scan over the comma-separated items.  The fuel strictly
exceeds the input length, and every `more` continuation is strictly
shorter than its input, so the fuel never runs out on the initial call. -/
def orderByGo (fuel : Nat) (l : List Char) : Bool :=
  match fuel with
  | 0 => false
  | fuel + 1 =>
    let name := l.takeWhile isOrderByChar
    let rest := l.dropWhile isOrderByChar
    if name.isEmpty then false
    else
      match afterItem rest with
      | OrderByStep.accept => true
      | OrderByStep.reject => false
      | OrderByStep.more r => orderByGo fuel r

/-- The full ORDER BY regex test `orderByPattern.test(orderBy)`
(source part_001:419-420). -/
def orderByPatternTest (s : String) : Bool :=
  orderByGo (s.toList.length + 1) s.toList

/-! ## Declarative grammar for the ORDER BY clause, written from the
specification sentence: a comma-separated list of bracketed-or-plain
dotted identifiers, each optionally suffixed with `ASC`/`DESC`
case-insensitively, where separators are commas with optional
surrounding whitespace. -/

/-- A direction keyword: `ASC` or `DESC` in any case combination. -/
def isDirectionWord : List Char → Bool
  | [a, b, c] =>
    (a == 'A' || a == 'a') && (b == 'S' || b == 's') && (c == 'C' || c == 'c')
  | [a, b, c, d] =>
    (a == 'D' || a == 'd') && (b == 'E' || b == 'e') && (c == 'S' || c == 's') &&
    (d == 'C' || d == 'c')
  | _ => false

/-- One column item: a non-empty run of item characters, optionally
followed by at least one whitespace character and a direction keyword. -/
def IsOrderByItem (l : List Char) : Prop :=
  (l ≠ [] ∧ l.all isOrderByChar = true) ∨
  (∃ name ws dir, l = name ++ ws ++ dir ∧ name ≠ [] ∧ name.all isOrderByChar = true ∧
    ws ≠ [] ∧ ws.all isWsChar = true ∧ isDirectionWord dir = true)

/-- A separator: a comma with optional whitespace on both sides. -/
def IsOrderBySep (l : List Char) : Prop :=
  ∃ w1 w2, l = w1 ++ ',' :: w2 ∧ w1.all isWsChar = true ∧ w2.all isWsChar = true

/-- A full ORDER BY clause: one or more items joined by separators. -/
inductive OrderByList : List Char → Prop where
  | single {l : List Char} : IsOrderByItem l → OrderByList l
  | cons {i s r : List Char} :
      IsOrderByItem i → IsOrderBySep s → OrderByList r → OrderByList (i ++ s ++ r)

/-! ## Auxiliary list lemmas -/

theorem length_dropWhile_le {α : Type} (p : α → Bool) (l : List α) :
    (l.dropWhile p).length ≤ l.length := by
  induction l with
  | nil => simp [List.dropWhile]
  | cons c cs ih =>
    simp only [List.dropWhile]
    split
    · simp; omega
    · simp

theorem takeWhile_append_all {α : Type} {p : α → Bool} {xs : List α} (ys : List α)
    (h : xs.all p = true) : (xs ++ ys).takeWhile p = xs ++ ys.takeWhile p := by
  induction xs with
  | nil => simp
  | cons c cs ih =>
    simp only [List.all_cons, Bool.and_eq_true] at h
    simp [List.takeWhile, h.1, ih h.2]

theorem dropWhile_append_all {α : Type} {p : α → Bool} {xs : List α} (ys : List α)
    (h : xs.all p = true) : (xs ++ ys).dropWhile p = ys.dropWhile p := by
  induction xs with
  | nil => simp
  | cons c cs ih =>
    simp only [List.all_cons, Bool.and_eq_true] at h
    simp [List.dropWhile, h.1, ih h.2]

theorem takeWhile_cons_false {α : Type} {p : α → Bool} {c : α} (cs : List α)
    (h : p c = false) : (c :: cs).takeWhile p = [] := by
  simp [List.takeWhile, h]

theorem dropWhile_cons_false {α : Type} {p : α → Bool} {c : α} (cs : List α)
    (h : p c = false) : (c :: cs).dropWhile p = c :: cs := by
  simp [List.dropWhile, h]

theorem takeWhile_all_self {α : Type} {p : α → Bool} {l : List α}
    (h : l.all p = true) : l.takeWhile p = l := by
  induction l with
  | nil => simp
  | cons c cs ih =>
    simp only [List.all_cons, Bool.and_eq_true] at h
    simp [List.takeWhile, h.1, ih h.2]

theorem dropWhile_all_self {α : Type} {p : α → Bool} {l : List α}
    (h : l.all p = true) : l.dropWhile p = [] := by
  induction l with
  | nil => simp
  | cons c cs ih =>
    simp only [List.all_cons, Bool.and_eq_true] at h
    simp [List.dropWhile, h.1, ih h.2]

theorem dropWhile_head_false {α : Type} {p : α → Bool} {l : List α} {c : α} {r : List α}
    (h : l.dropWhile p = c :: r) : p c = false := by
  induction l with
  | nil => simp [List.dropWhile] at h
  | cons a as ih =>
    simp only [List.dropWhile] at h
    cases hp : p a with
    | true =>
      rw [hp] at h
      exact ih h
    | false =>
      rw [hp] at h
      injection h with h1 _
      rw [← h1]
      exact hp

/-! ## Character-class disjointness facts -/

theorem ws_not_orderByChar {c : Char} (h : isWsChar c = true) :
    isOrderByChar c = false := by
  apply Bool.eq_false_iff.mpr
  intro h2
  simp only [isWsChar, Bool.or_eq_true, Bool.and_eq_true, decide_eq_true_eq,
    beq_iff_eq] at h
  simp only [isOrderByChar, Bool.or_eq_true, Bool.and_eq_true, decide_eq_true_eq,
    beq_iff_eq] at h2
  omega

theorem orderByChar_not_ws {c : Char} (h : isOrderByChar c = true) :
    isWsChar c = false := by
  apply Bool.eq_false_iff.mpr
  intro h2
  simp only [isOrderByChar, Bool.or_eq_true, Bool.and_eq_true, decide_eq_true_eq,
    beq_iff_eq] at h
  simp only [isWsChar, Bool.or_eq_true, Bool.and_eq_true, decide_eq_true_eq,
    beq_iff_eq] at h2
  omega

theorem ws_ne_comma {c : Char} (h : isWsChar c = true) : c ≠ ',' := by
  intro hc
  subst hc
  simp [isWsChar] at h

theorem orderByChar_ne_comma {c : Char} (h : isOrderByChar c = true) : c ≠ ',' := by
  intro hc
  subst hc
  simp [isOrderByChar] at h

/-! ## Facts about the direction-keyword matcher -/

theorem matchDirection_sound {l r : List Char} (h : matchDirection l = some r) :
    ∃ dir, l = dir ++ r ∧ isDirectionWord dir = true := by
  unfold matchDirection at h
  split at h
  · rename_i a b c rest
    split at h
    · rename_i hcond
      injection h with h2
      exact ⟨[a, b, c], by simp [h2], by simp only [isDirectionWord]; exact hcond⟩
    · rename_i hcond
      split at h
      · rename_i d rest2
        split at h
        · rename_i hcond2
          injection h with h3
          exact ⟨[a, b, c, d], by simp [h3], by simp only [isDirectionWord]; exact hcond2⟩
        · exact absurd h (by simp)
      · exact absurd h (by simp)
  · exact absurd h (by simp)

theorem matchDirection_complete {dir : List Char} (tail : List Char)
    (h : isDirectionWord dir = true) : matchDirection (dir ++ tail) = some tail := by
  match dir with
  | [] => simp [isDirectionWord] at h
  | [a] => simp [isDirectionWord] at h
  | [a, b] => simp [isDirectionWord] at h
  | [a, b, c] =>
    simp only [isDirectionWord] at h
    simp only [List.cons_append, List.nil_append, matchDirection]
    rw [if_pos h]
  | [a, b, c, d] =>
    simp only [isDirectionWord] at h
    have h' := h
    simp only [Bool.and_eq_true, Bool.or_eq_true, beq_iff_eq] at h'
    have ha : (a == 'A' || a == 'a') = false := by
      rcases h'.1.1.1 with h3 | h3 <;> subst h3 <;> decide
    simp only [List.cons_append, List.nil_append, matchDirection]
    rw [if_neg (by simp [ha])]
    rw [if_pos h]
  | _ :: _ :: _ :: _ :: _ :: _ => simp [isDirectionWord] at h

theorem dirWord_head {dir : List Char} (h : isDirectionWord dir = true) :
    ∃ c t, dir = c :: t ∧ isWsChar c = false ∧ c ≠ ',' ∧ isOrderByChar c = true := by
  match dir with
  | [] => simp [isDirectionWord] at h
  | [a] => simp [isDirectionWord] at h
  | [a, b] => simp [isDirectionWord] at h
  | [a, b, c] =>
    simp only [isDirectionWord, Bool.and_eq_true, Bool.or_eq_true, beq_iff_eq] at h
    refine ⟨a, [b, c], rfl, ?_, ?_, ?_⟩ <;> rcases h.1.1 with h1 | h1 <;> subst h1 <;> decide
  | [a, b, c, d] =>
    simp only [isDirectionWord, Bool.and_eq_true, Bool.or_eq_true, beq_iff_eq] at h
    refine ⟨a, [b, c, d], rfl, ?_, ?_, ?_⟩ <;> rcases h.1.1.1 with h1 | h1 <;>
      subst h1 <;> decide
  | _ :: _ :: _ :: _ :: _ :: _ => simp [isDirectionWord] at h

theorem item_head {i : List Char} (h : IsOrderByItem i) :
    ∃ c t, i = c :: t ∧ isOrderByChar c = true := by
  rcases h with ⟨hne, hall⟩ | ⟨name, ws, dir, heq, hne, hall, _, _, _⟩
  · cases i with
    | nil => exact absurd rfl hne
    | cons c t =>
      simp only [List.all_cons, Bool.and_eq_true] at hall
      exact ⟨c, t, rfl, hall.1⟩
  · cases name with
    | nil => exact absurd rfl hne
    | cons c t =>
      simp only [List.all_cons, Bool.and_eq_true] at hall
      exact ⟨c, t ++ ws ++ dir, by simp [heq], hall.1⟩

theorem orderByList_head {l : List Char} (h : OrderByList l) :
    ∃ c t, l = c :: t ∧ isOrderByChar c = true := by
  cases h with
  | single hi => exact item_head hi
  | @cons i s r hi hs hr =>
    obtain ⟨c, t, heq, hc⟩ := item_head hi
    exact ⟨c, t ++ s ++ r, by simp [heq], hc⟩

/-! ## Computation lemmas for the continuation scanners -/

theorem afterDirection_sep {w1 w2 r : List Char} (hw1 : w1.all isWsChar = true)
    (hw2 : w2.all isWsChar = true) (hr : r.dropWhile isWsChar = r) :
    afterDirection (w1 ++ (',' :: (w2 ++ r))) = OrderByStep.more r := by
  simp only [afterDirection]
  rw [dropWhile_append_all _ hw1, dropWhile_cons_false _ (by decide)]
  simp [dropWhile_append_all _ hw2, hr]

theorem afterItem_sep {w1 w2 r : List Char} (hw1 : w1.all isWsChar = true)
    (hw2 : w2.all isWsChar = true) (hr : r.dropWhile isWsChar = r) :
    afterItem (w1 ++ (',' :: (w2 ++ r))) = OrderByStep.more r := by
  simp only [afterItem]
  rw [dropWhile_append_all _ hw1, dropWhile_cons_false _ (by decide)]
  simp [dropWhile_append_all _ hw2, hr]

theorem afterItem_dir {ws dir tail : List Char} (hws : ws ≠ [])
    (hallws : ws.all isWsChar = true) (hdir : isDirectionWord dir = true) :
    afterItem (ws ++ (dir ++ tail)) = afterDirection tail := by
  obtain ⟨c, t, hdc, hcws, hccomma, _⟩ := dirWord_head hdir
  simp only [afterItem]
  rw [hdc, List.cons_append, dropWhile_append_all _ hallws, dropWhile_cons_false _ hcws]
  have hwe : (List.takeWhile isWsChar (ws ++ (c :: (t ++ tail)))).isEmpty = false := by
    rw [takeWhile_append_all _ hallws]
    cases ws with
    | nil => exact absurd rfl hws
    | cons a as => simp
  have hmd : matchDirection (c :: (t ++ tail)) = some tail := by
    rw [← List.cons_append, ← hdc]
    exact matchDirection_complete tail hdir
  simp [hccomma, hwe, hmd]

/-! ## Inversion lemmas for the continuation scanners -/

theorem afterDirection_accept {rest : List Char}
    (h : afterDirection rest = OrderByStep.accept) : rest = [] := by
  simp only [afterDirection] at h
  split at h
  · rename_i heq
    split at h
    · rename_i hws
      have h1 : rest.takeWhile isWsChar = [] := by
        simpa [List.isEmpty_iff] using hws
      have hd := List.takeWhile_append_dropWhile isWsChar rest
      rw [h1, heq] at hd
      exact hd.symm
    · exact absurd h (by simp)
  · split at h
    · exact absurd h (by simp)
    · exact absurd h (by simp)

theorem afterDirection_more {rest r : List Char}
    (h : afterDirection rest = OrderByStep.more r) :
    ∃ sep, rest = sep ++ r ∧ IsOrderBySep sep := by
  simp only [afterDirection] at h
  split at h
  · split at h
    · exact absurd h (by simp)
    · exact absurd h (by simp)
  · rename_i c r3 heq
    split at h
    · rename_i hc
      subst hc
      injection h with h1
      refine ⟨rest.takeWhile isWsChar ++ (',' :: r3.takeWhile isWsChar), ?_, ?_⟩
      · have hd := List.takeWhile_append_dropWhile isWsChar rest
        rw [heq] at hd
        have hd3 := List.takeWhile_append_dropWhile isWsChar r3
        rw [h1] at hd3
        calc rest = rest.takeWhile isWsChar ++ (',' :: r3) := hd.symm
        _ = rest.takeWhile isWsChar ++ (',' :: (r3.takeWhile isWsChar ++ r)) := by
              rw [hd3]
        _ = (rest.takeWhile isWsChar ++ (',' :: r3.takeWhile isWsChar)) ++ r := by
              simp
      · exact ⟨rest.takeWhile isWsChar, r3.takeWhile isWsChar, rfl,
          List.all_takeWhile, List.all_takeWhile⟩
    · exact absurd h (by simp)

theorem afterItem_accept {rest : List Char} (h : afterItem rest = OrderByStep.accept) :
    rest = [] ∨ ∃ ws dir, rest = ws ++ dir ∧ ws ≠ [] ∧ ws.all isWsChar = true ∧
      isDirectionWord dir = true := by
  simp only [afterItem] at h
  split at h
  · rename_i heq
    split at h
    · rename_i hws
      left
      have h1 : rest.takeWhile isWsChar = [] := by
        simpa [List.isEmpty_iff] using hws
      have hd := List.takeWhile_append_dropWhile isWsChar rest
      rw [h1, heq] at hd
      exact hd.symm
    · exact absurd h (by simp)
  · rename_i c r3 heq
    split at h
    · exact absurd h (by simp)
    · split at h
      · exact absurd h (by simp)
      · rename_i hws
        split at h
        · rename_i r4 hmd
          right
          obtain ⟨dir, hcr, hdir⟩ := matchDirection_sound hmd
          have h4 : r4 = [] := afterDirection_accept h
          subst h4
          refine ⟨rest.takeWhile isWsChar, dir, ?_, ?_, List.all_takeWhile, hdir⟩
          · have hd := List.takeWhile_append_dropWhile isWsChar rest
            rw [heq, hcr] at hd
            simpa using hd.symm
          · intro hnil
            rw [hnil] at hws
            simp at hws
        · exact absurd h (by simp)

theorem afterItem_more {rest r : List Char} (h : afterItem rest = OrderByStep.more r) :
    (∃ sep, rest = sep ++ r ∧ IsOrderBySep sep) ∨
    (∃ ws dir sep, rest = ws ++ (dir ++ (sep ++ r)) ∧ ws ≠ [] ∧ ws.all isWsChar = true ∧
      isDirectionWord dir = true ∧ IsOrderBySep sep) := by
  simp only [afterItem] at h
  split at h
  · split at h
    · exact absurd h (by simp)
    · exact absurd h (by simp)
  · rename_i c r3 heq
    split at h
    · rename_i hc
      subst hc
      injection h with h1
      left
      refine ⟨rest.takeWhile isWsChar ++ (',' :: r3.takeWhile isWsChar), ?_, ?_⟩
      · have hd := List.takeWhile_append_dropWhile isWsChar rest
        rw [heq] at hd
        have hd3 := List.takeWhile_append_dropWhile isWsChar r3
        rw [h1] at hd3
        calc rest = rest.takeWhile isWsChar ++ (',' :: r3) := hd.symm
        _ = rest.takeWhile isWsChar ++ (',' :: (r3.takeWhile isWsChar ++ r)) := by
              rw [hd3]
        _ = (rest.takeWhile isWsChar ++ (',' :: r3.takeWhile isWsChar)) ++ r := by
              simp
      · exact ⟨rest.takeWhile isWsChar, r3.takeWhile isWsChar, rfl,
          List.all_takeWhile, List.all_takeWhile⟩
    · split at h
      · exact absurd h (by simp)
      · rename_i hws
        split at h
        · rename_i r4 hmd
          right
          obtain ⟨dir, hcr, hdir⟩ := matchDirection_sound hmd
          obtain ⟨sep, h4, hsep⟩ := afterDirection_more h
          refine ⟨rest.takeWhile isWsChar, dir, sep, ?_, ?_, List.all_takeWhile, hdir, hsep⟩
          · have hd := List.takeWhile_append_dropWhile isWsChar rest
            rw [heq, hcr, h4] at hd
            simpa using hd.symm
          · intro hnil
            rw [hnil] at hws
            simp at hws
        · exact absurd h (by simp)

theorem afterItem_nil : afterItem [] = OrderByStep.accept := rfl

theorem afterDirection_nil : afterDirection [] = OrderByStep.accept := rfl

theorem sepPlus_head_not_cls {w1 : List Char} (hw1 : w1.all isWsChar = true)
    (y : List Char) :
    ∃ c t, w1 ++ (',' :: y) = c :: t ∧ isOrderByChar c = false := by
  cases w1 with
  | nil => exact ⟨',', y, by simp, by decide⟩
  | cons a as =>
    simp only [List.all_cons, Bool.and_eq_true] at hw1
    exact ⟨a, as ++ (',' :: y), by simp, ws_not_orderByChar hw1.1⟩

theorem takeWhile_cls_ws_head {w0 : Char} {wt : List Char} (y : List Char)
    (hw0 : isWsChar w0 = true) :
    ((w0 :: wt) ++ y).takeWhile isOrderByChar = [] := by
  rw [List.cons_append]
  exact takeWhile_cons_false _ (ws_not_orderByChar hw0)

theorem dropWhile_cls_ws_head {w0 : Char} {wt : List Char} (y : List Char)
    (hw0 : isWsChar w0 = true) :
    ((w0 :: wt) ++ y).dropWhile isOrderByChar = (w0 :: wt) ++ y := by
  rw [List.cons_append]
  exact dropWhile_cons_false _ (ws_not_orderByChar hw0)

/-! ## Soundness and completeness of the ORDER BY matcher with respect to
the declarative grammar -/

theorem orderByGo_sound : ∀ (fuel : Nat) (l : List Char),
    orderByGo fuel l = true → OrderByList l := by
  intro fuel
  induction fuel with
  | zero => intro l h; simp [orderByGo] at h
  | succ fuel ih =>
    intro l h
    simp only [orderByGo] at h
    by_cases hne : (l.takeWhile isOrderByChar).isEmpty
    · rw [if_pos hne] at h
      simp at h
    · rw [if_neg hne] at h
      have hname : l.takeWhile isOrderByChar ≠ [] := by
        intro h0
        rw [h0] at hne
        simp at hne
      have hdecomp := List.takeWhile_append_dropWhile isOrderByChar l
      cases hstep : afterItem (l.dropWhile isOrderByChar) with
      | accept =>
        rcases afterItem_accept hstep with hnil | ⟨ws, dir, hr, hwsne, hwall, hdir⟩
        · apply OrderByList.single
          left
          refine ⟨?_, ?_⟩
          · intro h0
            apply hname
            rw [h0]
            rfl
          · rw [← hdecomp, hnil, List.append_nil]
            exact List.all_takeWhile
        · apply OrderByList.single
          right
          refine ⟨l.takeWhile isOrderByChar, ws, dir, ?_, hname, List.all_takeWhile,
            hwsne, hwall, hdir⟩
          conv_lhs => rw [← hdecomp]
          rw [hr, List.append_assoc]
      | reject =>
        rw [hstep] at h
        simp at h
      | more r =>
        rw [hstep] at h
        have hr' := ih r h
        rcases afterItem_more hstep with ⟨sep, hrw, hsep⟩ |
          ⟨ws, dir, sep, hrw, hwsne, hwall, hdir, hsep⟩
        · have hl : l = l.takeWhile isOrderByChar ++ sep ++ r := by
            conv_lhs => rw [← hdecomp]
            rw [hrw, List.append_assoc]
          rw [hl]
          exact OrderByList.cons (Or.inl ⟨hname, List.all_takeWhile⟩) hsep hr'
        · have hl : l = (l.takeWhile isOrderByChar ++ ws ++ dir) ++ sep ++ r := by
            conv_lhs => rw [← hdecomp]
            rw [hrw]
            simp [List.append_assoc]
          rw [hl]
          refine OrderByList.cons (Or.inr ?_) hsep hr'
          exact ⟨l.takeWhile isOrderByChar, ws, dir, rfl, hname, List.all_takeWhile,
            hwsne, hwall, hdir⟩

theorem orderByList_complete {l : List Char} (h : OrderByList l) :
    ∀ fuel, l.length < fuel → orderByGo fuel l = true := by
  induction h with
  | single hi =>
    intro fuel hlen
    cases fuel with
    | zero => omega
    | succ fuel =>
      rcases hi with ⟨hne, hall⟩ | ⟨name, ws, dir, heq, hne, hall, hwsne, hwall, hdir⟩
      · cases hcl : ‹List Char› with
        | nil => exact absurd hcl hne
        | cons c t =>
          subst hcl
          simp only [orderByGo]
          rw [takeWhile_all_self hall, dropWhile_all_self hall, afterItem_nil]
          simp
      · subst heq
        cases ws with
        | nil => exact absurd rfl hwsne
        | cons w0 wt =>
          have hw0 : isWsChar w0 = true := by
            simp only [List.all_cons, Bool.and_eq_true] at hwall
            exact hwall.1
          cases name with
          | nil => exact absurd rfl hne
          | cons a at' =>
            simp only [orderByGo]
            have hl : (a :: at') ++ (w0 :: wt) ++ dir =
                (a :: at') ++ ((w0 :: wt) ++ (dir ++ ([] : List Char))) := by
              simp [List.append_assoc]
            rw [hl, takeWhile_append_all _ hall, takeWhile_cls_ws_head _ hw0,
              List.append_nil, dropWhile_append_all _ hall,
              dropWhile_cls_ws_head _ hw0, afterItem_dir hwsne hwall hdir,
              afterDirection_nil]
            simp
  | @cons i s r hi hsep hr ihr =>
    intro fuel hlen
    cases fuel with
    | zero => omega
    | succ fuel =>
      obtain ⟨ch, ct, hrh, hrc⟩ := orderByList_head hr
      have hrdrop : r.dropWhile isWsChar = r := by
        rw [hrh]
        exact dropWhile_cons_false _ (orderByChar_not_ws hrc)
      obtain ⟨w1, w2, hseq, hw1, hw2⟩ := hsep
      have hrl : r.length < fuel := by
        have h1 : (i ++ s ++ r).length = i.length + s.length + r.length := by
          simp [List.length_append]
          omega
        have h2 : s.length = w1.length + 1 + w2.length := by
          rw [hseq]
          simp [List.length_append]
          omega
        omega
      rcases hi with ⟨hne, hall⟩ | ⟨name, ws, dir, heq, hne, hall, hwsne, hwall, hdir⟩
      · obtain ⟨c0, t0, hx, hc0⟩ := sepPlus_head_not_cls hw1 (w2 ++ r)
        have hl : i ++ s ++ r = i ++ (w1 ++ (',' :: (w2 ++ r))) := by
          rw [hseq]
          simp [List.append_assoc]
        rw [hl]
        cases i with
        | nil => exact absurd rfl hne
        | cons a at' =>
          simp only [orderByGo]
          rw [takeWhile_append_all _ hall, hx, takeWhile_cons_false _ hc0,
            List.append_nil, dropWhile_append_all _ hall,
            dropWhile_cons_false _ hc0, ← hx, afterItem_sep hw1 hw2 hrdrop]
          simpa using ihr fuel hrl
      · obtain ⟨c0, t0, hx, hc0⟩ := sepPlus_head_not_cls hw1 (w2 ++ r)
        subst heq
        cases ws with
        | nil => exact absurd rfl hwsne
        | cons w0 wt =>
          have hw0 : isWsChar w0 = true := by
            simp only [List.all_cons, Bool.and_eq_true] at hwall
            exact hwall.1
          cases name with
          | nil => exact absurd rfl hne
          | cons a at' =>
            have hl : (a :: at') ++ (w0 :: wt) ++ dir ++ s ++ r =
                (a :: at') ++ ((w0 :: wt) ++ (dir ++ (w1 ++ (',' :: (w2 ++ r))))) := by
              rw [hseq]
              simp [List.append_assoc]
            rw [hl]
            simp only [orderByGo]
            rw [takeWhile_append_all _ hall, takeWhile_cls_ws_head _ hw0,
              List.append_nil, dropWhile_append_all _ hall,
              dropWhile_cls_ws_head _ hw0, afterItem_dir hwsne hwall hdir,
              afterDirection_sep hw1 hw2 hrdrop]
            simpa using ihr fuel hrl

/-- The source ORDER BY regex accepts exactly the strings generated by the
declarative comma-separated-items grammar. -/
theorem orderByPatternTest_iff (s : String) :
    orderByPatternTest s = true ↔ OrderByList s.toList :=
  ⟨orderByGo_sound _ _, fun h => orderByList_complete h _ (Nat.lt_succ_self _)⟩

/-! ## Events exchanged with the external mssql driver -/

/-- One interaction with the external driver: creating a request from the
pool, binding a named input parameter, running a query, or executing a
stored procedure. -/
inductive DriverEv where
  | request : DriverEv
  | input (key value : String) : DriverEv
  | query (text : String) : DriverEv
  | executeProc (stmt : String) : DriverEv
deriving DecidableEq

/-! ## get_table_data: zod input schema (source part_001:377-384).
JavaScript numbers that pass `z.number().int()` are modelled as `Int`. -/

/-- Raw tool-call arguments for get_table_data before schema validation.
Parameter values are opaque scalars, modelled as strings. -/
structure GetTableDataRawArgs where
  tableName : String
  schemaName : Option String
  limit : Option Int
  offset : Option Int
  whereClause : Option String
  orderBy : Option String
  parameters : Option (List (String × String))
deriving DecidableEq

/-- Arguments after schema validation and default substitution. -/
structure GetTableDataArgs where
  tableName : String
  schemaName : String
  limit : Int
  offset : Int
  whereClause : Option String
  orderBy : Option String
  parameters : Option (List (String × String))
deriving DecidableEq

/-- zod field `schemaName: z.string().regex(pattern).optional().default("dbo")`. -/
def parseSchemaField : Option String → Except String String
  | none => Except.ok "dbo"
  | some sn =>
    if !tableNamePatternTest sn then
      Except.error "Schema name can only contain letters, numbers, and underscores"
    else Except.ok sn

/-- zod field `limit: z.number().int().min(1).max(10000).optional().default(100)`. -/
def parseLimitField : Option Int → Except String Int
  | none => Except.ok 100
  | some v =>
    if v < 1 then Except.error "Number must be greater than or equal to 1"
    else if 10000 < v then Except.error "Number must be less than or equal to 10000"
    else Except.ok v

/-- zod field `offset: z.number().int().min(0).optional().default(0)`. -/
def parseOffsetField : Option Int → Except String Int
  | none => Except.ok 0
  | some v =>
    if v < 0 then Except.error "Number must be greater than or equal to 0"
    else Except.ok v

/-- The zod object schema for get_table_data, checked by the MCP layer
before the handler runs; fields are validated in declaration order and
the first violation rejects the call. -/
def parseGetTableDataArgs (r : GetTableDataRawArgs) : Except String GetTableDataArgs :=
  if r.tableName.toList.isEmpty then
    Except.error "String must contain at least 1 character(s)"
  else if !tableNamePatternTest r.tableName then
    Except.error "Table name can only contain letters, numbers, and underscores"
  else
    match parseSchemaField r.schemaName with
    | Except.error e => Except.error e
    | Except.ok schemaName =>
      match parseLimitField r.limit with
      | Except.error e => Except.error e
      | Except.ok limit =>
        match parseOffsetField r.offset with
        | Except.error e => Except.error e
        | Except.ok offset =>
          Except.ok
            { tableName := r.tableName
              schemaName := schemaName
              limit := limit
              offset := offset
              whereClause := r.whereClause
              orderBy := r.orderBy
              parameters := r.parameters }

/-- The pagination tail ` OFFSET <offset> ROWS FETCH NEXT <limit> ROWS ONLY`
(source part_001:429). -/
def pageTail (offset limit : Int) : String :=
  " OFFSET " ++ toString offset ++ " ROWS FETCH NEXT " ++ toString limit ++ " ROWS ONLY"

/-- The statement before its ORDER BY part (source part_001:402-414):
`SELECT * FROM [schema].[table]`, with the WHERE clause appended verbatim
when supplied. -/
def getTableDataQuery1 (a : GetTableDataArgs) : String :=
  match a.whereClause with
  | some w =>
    "SELECT * FROM [" ++ a.schemaName ++ "].[" ++ a.tableName ++ "]" ++ " WHERE " ++ w
  | none => "SELECT * FROM [" ++ a.schemaName ++ "].[" ++ a.tableName ++ "]"

/-- Parameter-binding events (source part_001:406-412): inputs are bound
only when a WHERE clause and parameters are both present. -/
def getTableDataInputEvs (a : GetTableDataArgs) : List DriverEv :=
  match a.whereClause, a.parameters with
  | some _, some ps => ps.map (fun kv => DriverEv.input kv.1 kv.2)
  | _, _ => []

/-- The get_table_data handler body (source part_001:386-434): pool check,
runtime identifier re-validation, statement construction, parameter
binding and the final driver query.  The success value is the statement
text handed to `request.query`. -/
def getTableDataHandler (poolPresent : Bool) (a : GetTableDataArgs) :
    Except String String × List DriverEv :=
  if !poolPresent then
    (Except.error "No database connection. Please connect first.", [])
  else if !tableNamePatternTest a.tableName then
    (Except.error "Invalid table name. Only letters, numbers, and underscores are allowed.", [])
  else if !tableNamePatternTest a.schemaName then
    (Except.error "Invalid schema name. Only letters, numbers, and underscores are allowed.", [])
  else
    match a.orderBy with
    | some ob =>
      if !orderByPatternTest ob then
        (Except.error
          "Invalid ORDER BY clause. Only column names, commas, spaces, ASC, and DESC are allowed.",
          DriverEv.request :: getTableDataInputEvs a)
      else
        (Except.ok (getTableDataQuery1 a ++ " ORDER BY " ++ ob ++ pageTail a.offset a.limit),
         DriverEv.request :: getTableDataInputEvs a ++
           [DriverEv.query (getTableDataQuery1 a ++ " ORDER BY " ++ ob ++
             pageTail a.offset a.limit)])
    | none =>
      (Except.ok (getTableDataQuery1 a ++ " ORDER BY (SELECT NULL)" ++ pageTail a.offset a.limit),
       DriverEv.request :: getTableDataInputEvs a ++
         [DriverEv.query (getTableDataQuery1 a ++ " ORDER BY (SELECT NULL)" ++
           pageTail a.offset a.limit)])

/-- The complete get_table_data tool-call path: zod schema validation at
the protocol boundary, then the handler.  A schema rejection returns a
validation error before the handler runs, with no driver interaction. -/
def getTableDataCall (poolPresent : Bool) (r : GetTableDataRawArgs) :
    Except String String × List DriverEv :=
  match parseGetTableDataArgs r with
  | Except.error e => (Except.error e, [])
  | Except.ok a => getTableDataHandler poolPresent a

/-! ## get_schema (source part_001:152-245): query construction by string
interpolation of the caller-supplied schemaName, with no validation. -/

/-- Object kinds accepted by get_schema. -/
inductive SchemaObjectType where
  | tables : SchemaObjectType
  | views : SchemaObjectType
  | procedures : SchemaObjectType
  | functions : SchemaObjectType
  | all : SchemaObjectType
deriving DecidableEq

/-- The interpolated filter `${schemaName ? `WHERE TABLE_SCHEMA = ...` : ""}`. -/
def schemaFilterTables : Option String → String
  | some s => "WHERE TABLE_SCHEMA = '" ++ s ++ "'"
  | none => ""

/-- The interpolated filter `${schemaName ? `AND ROUTINE_SCHEMA = ...` : ""}`. -/
def schemaFilterRoutines : Option String → String
  | some s => "AND ROUTINE_SCHEMA = '" ++ s ++ "'"
  | none => ""

/-- Template block for tables (source part_001:169-177). -/
def tablesBlock (schemaName : Option String) : String :=
  "\n              SELECT \n                TABLE_SCHEMA,\n                TABLE_NAME,\n                TABLE_TYPE,\n                'table' as OBJECT_TYPE\n              FROM INFORMATION_SCHEMA.TABLES\n              "
    ++ schemaFilterTables schemaName ++ "\n            "

/-- Template block for views (source part_001:182-190). -/
def viewsBlock (schemaName : Option String) : String :=
  "\n              SELECT \n                TABLE_SCHEMA,\n                TABLE_NAME,\n                'VIEW' as TABLE_TYPE,\n                'view' as OBJECT_TYPE\n              FROM INFORMATION_SCHEMA.VIEWS\n              "
    ++ schemaFilterTables schemaName ++ "\n            "

/-- Template block for procedures (source part_001:195-204). -/
def proceduresBlock (schemaName : Option String) : String :=
  "\n              SELECT \n                ROUTINE_SCHEMA as TABLE_SCHEMA,\n                ROUTINE_NAME as TABLE_NAME,\n                'PROCEDURE' as TABLE_TYPE,\n                'procedure' as OBJECT_TYPE\n              FROM INFORMATION_SCHEMA.ROUTINES\n              WHERE ROUTINE_TYPE = 'PROCEDURE'\n              "
    ++ schemaFilterRoutines schemaName ++ "\n            "

/-- Template block for functions (source part_001:209-218). -/
def functionsBlock (schemaName : Option String) : String :=
  "\n              SELECT \n                ROUTINE_SCHEMA as TABLE_SCHEMA,\n                ROUTINE_NAME as TABLE_NAME,\n                'FUNCTION' as TABLE_TYPE,\n                'function' as OBJECT_TYPE\n              FROM INFORMATION_SCHEMA.ROUTINES\n              WHERE ROUTINE_TYPE = 'FUNCTION'\n              "
    ++ schemaFilterRoutines schemaName ++ "\n            "

/-- The full get_schema statement (source part_001:166-221): blocks joined
with ` UNION ALL ` when a previous block is non-empty (the `if (query)`
truthiness test), then the ORDER BY suffix. -/
def getSchemaQuery (objectType : SchemaObjectType) (schemaName : Option String) : String :=
  let q := ""
  let q :=
    if objectType = SchemaObjectType.tables ∨ objectType = SchemaObjectType.all then
      q ++ tablesBlock schemaName
    else q
  let q :=
    if objectType = SchemaObjectType.views ∨ objectType = SchemaObjectType.all then
      (if q.toList.isEmpty then q else q ++ " UNION ALL ") ++ viewsBlock schemaName
    else q
  let q :=
    if objectType = SchemaObjectType.procedures ∨ objectType = SchemaObjectType.all then
      (if q.toList.isEmpty then q else q ++ " UNION ALL ") ++ proceduresBlock schemaName
    else q
  let q :=
    if objectType = SchemaObjectType.functions ∨ objectType = SchemaObjectType.all then
      (if q.toList.isEmpty then q else q ++ " UNION ALL ") ++ functionsBlock schemaName
    else q
  q ++ " ORDER BY TABLE_SCHEMA, TABLE_NAME"

/-- The get_schema tool-call path (source part_001:160-232): pool check,
then the interpolated statement goes straight to the driver. -/
def getSchemaCall (poolPresent : Bool) (objectType : SchemaObjectType)
    (schemaName : Option String) : Except String String × List DriverEv :=
  if !poolPresent then
    (Except.error "No database connection. Please connect first.", [])
  else
    let q := getSchemaQuery objectType schemaName
    (Except.ok q, [DriverEv.request, DriverEv.query q])

/-! ## execute_procedure (source part_001:472-522): the statement
`[${schemaName}].[${procedureName}]` is interpolated with no validation. -/

/-- The executed procedure statement (source part_001:495). -/
def executeProcedureStatement (schemaName procedureName : String) : String :=
  "[" ++ schemaName ++ "].[" ++ procedureName ++ "]"

/-- The execute_procedure tool-call path: pool check, parameter binding,
then `request.execute` on the interpolated statement. -/
def executeProcedureCall (poolPresent : Bool) (procedureName schemaName : String)
    (parameters : Option (List (String × String))) :
    Except String String × List DriverEv :=
  if !poolPresent then
    (Except.error "No database connection. Please connect first.", [])
  else
    let inputEvs : List DriverEv :=
      match parameters with
      | some ps => ps.map (fun kv => DriverEv.input kv.1 kv.2)
      | none => []
    let stmt := executeProcedureStatement schemaName procedureName
    (Except.ok stmt, DriverEv.request :: inputEvs ++ [DriverEv.executeProc stmt])

/-! ## Connection configuration (source part_001:13-22 and 49-67) -/

/-- The validated connection configuration (the zod ConfigSchema of
part_001:13-22). -/
structure DatabaseConfig where
  server : String
  database : Option String
  user : Option String
  password : Option String
  port : Int
  trustServerCertificate : Bool
  connectionTimeout : Int
  requestTimeout : Int
deriving DecidableEq

/-- The process environment slots read by connect_database. -/
structure ProcessEnv where
  dbServer : Option String
  dbDatabase : Option String
  dbUser : Option String
  dbPassword : Option String
  dbPort : Option String
  dbTrustServerCertificate : Option String
  dbConnectionTimeout : Option String
  dbRequestTimeout : Option String
deriving DecidableEq

/-- JavaScript `parseInt(s)` in base 10: skip leading whitespace, optional
sign, then the longest digit run; no digit yields NaN, modelled as none. -/
def jsParseInt (s : String) : Option Int :=
  let l := s.toList.dropWhile isWsChar
  let signAndRest : Int × List Char :=
    match l with
    | '-' :: r => (-1, r)
    | '+' :: r => (1, r)
    | _ => (1, l)
  let ds := signAndRest.2.takeWhile Char.isDigit
  if ds.isEmpty then none
  else some (signAndRest.1 * (ds.foldl (fun acc c => acc * 10 + ((c.toNat : Int) - 48)) 0))

/-- An opaque tool-call argument record (key-value view of whatever the
client sent along with the call). -/
abbrev ToolArgs := List (String × String)

/-- The v1.0.3 connect_database handler (source part_001:49-67): the tool
declares no parameters, and the handler builds the configuration from the
process environment alone — the argument record is deliberately ignored,
mirroring the source comment `SECURITY: Only use environment variables,
ignore all user parameters`.  zod range checks on port and the two
timeouts reject out-of-range or non-numeric values. -/
def connectDatabaseConfig (env : ProcessEnv) (args : ToolArgs) :
    Except String DatabaseConfig :=
  let _ := args
  match env.dbServer with
  | none => Except.error "Required"
  | some server =>
    if server.toList.isEmpty then Except.error "Server address is required"
    else
      match (match env.dbPort with
             | none => some (1433 : Int)
             | some s => jsParseInt s) with
      | none => Except.error "Expected number, received nan"
      | some port =>
        if port < 1 ∨ 65535 < port then
          Except.error "Port out of range"
        else
          match (match env.dbConnectionTimeout with
                 | none => some (30000 : Int)
                 | some s => jsParseInt s) with
          | none => Except.error "Expected number, received nan"
          | some ct =>
            if ct < 1000 ∨ 60000 < ct then
              Except.error "Connection timeout out of range"
            else
              match (match env.dbRequestTimeout with
                     | none => some (30000 : Int)
                     | some s => jsParseInt s) with
              | none => Except.error "Expected number, received nan"
              | some rt =>
                if rt < 1000 ∨ 300000 < rt then
                  Except.error "Request timeout out of range"
                else
                  Except.ok
                    { server := server
                      database := env.dbDatabase
                      user := env.dbUser
                      password := env.dbPassword
                      port := port
                      trustServerCertificate := env.dbTrustServerCertificate == some "true"
                      connectionTimeout := ct
                      requestTimeout := rt }

/-! ## Connection lifecycle (source part_001:604-662) -/

/-- One interaction with the external driver's pool layer. -/
inductive PoolEv where
  | closePool (handle : Nat) : PoolEv
  | createPool (handle : Nat) (cfg : DatabaseConfig) : PoolEv
  | connectOk (handle : Nat) : PoolEv
  | connectFailed (handle : Nat) : PoolEv
deriving DecidableEq

/-- The two private fields of the server object: `pool` and `config`
(source part_001:28-29).  A pool handle is named by a number. -/
structure ConnState where
  pool : Option Nat
  config : Option DatabaseConfig
deriving DecidableEq

/-- The private `connect` method (source part_001:604-662) as a state
transition.  Any existing pool is closed first; a fresh pool is created
and connected.  On success the handle and config are stored; on failure
(outcome supplied as `success = false`) the catch block closes the new
pool and resets both `pool` and `config` to null before rethrowing. -/
def connectStep (st : ConnState) (cfg : DatabaseConfig) (newHandle : Nat)
    (success : Bool) : ConnState × List PoolEv × Except String Unit :=
  let closeEvs : List PoolEv :=
    match st.pool with
    | some h => [PoolEv.closePool h]
    | none => []
  if success then
    ({ pool := some newHandle, config := some cfg },
      closeEvs ++ [PoolEv.createPool newHandle cfg, PoolEv.connectOk newHandle],
      Except.ok ())
  else
    ({ pool := none, config := none },
      closeEvs ++ [PoolEv.createPool newHandle cfg, PoolEv.connectFailed newHandle,
        PoolEv.closePool newHandle],
      Except.error "Database connection failed")

/-- Modelled from the spec: `ensureConnected` (spec 4.1), the auto-connect
layer of the v2.0.x line whose code is not among the checked-in sources
(the v1.0.x files only have the unconditional `connect` primitive above).
If the state is Connected and the supplied config equals the stored one,
the existing handle is returned with no driver interaction; otherwise the
connect transition runs. -/
def ensureConnected (st : ConnState) (cfg : DatabaseConfig) (newHandle : Nat)
    (success : Bool) : ConnState × List PoolEv × Except String Nat :=
  match st.pool, st.config with
  | some h, some stored =>
    if stored = cfg then (st, [], Except.ok h)
    else
      let r := connectStep st cfg newHandle success
      (r.1, r.2.1, r.2.2.map fun _ => newHandle)
  | _, _ =>
    let r := connectStep st cfg newHandle success
    (r.1, r.2.1, r.2.2.map fun _ => newHandle)

/-- The record reported by the connection_status tool. -/
structure ConnectionStatusView where
  connected : Bool
  server : String
  database : String
  port : String
deriving DecidableEq

/-- The connection_status tool (source part_001:305-337): `connected` is
`pool?.connected || false` (`connFlag h` models the driver's `connected`
property of pool `h`); `server`, `database` and `port` fall back through
`||` to placeholder strings, so empty or zero values also yield the
placeholders. -/
def connectionStatus (st : ConnState) (connFlag : Nat → Bool) : ConnectionStatusView :=
  { connected :=
      match st.pool with
      | some h => connFlag h
      | none => false
    server :=
      match st.config with
      | some c => if c.server.toList.isEmpty then "Not configured" else c.server
      | none => "Not configured"
    database :=
      match st.config with
      | some c =>
        match c.database with
        | some d => if d.toList.isEmpty then "Not specified" else d
        | none => "Not specified"
      | none => "Not specified"
    port :=
      match st.config with
      | some c => if c.port = 0 then "Not specified" else toString c.port
      | none => "Not specified" }

/-! ## StatementGuard and QueryCache.  The v2.0.x sources implementing
these are not among the checked-in files; they are modelled from the
specification (spec 4.3, 4.4) and the repository README, which documents
`Blocked: Server-level operations only (SHUTDOWN, XP_CMDSHELL,
RECONFIGURE)` and `Query Caching: 5-minute TTL for SELECT queries`. -/

/-- Modelled from the spec: the fixed deny-list of server-administration
constructs — shutdown commands, shell-execution procedures, server
reconfiguration statements and the equivalent catalog invocation. -/
def deniedTokens : List String :=
  ["SHUTDOWN", "XP_CMDSHELL", "RECONFIGURE", "SP_CONFIGURE"]

/-- Modelled from the spec: `checkStatement` scans the statement text
case-insensitively for any denied token; any hit rejects the whole
statement (`true` = pass). -/
def checkStatement (q : String) : Bool :=
  deniedTokens.all (fun t => !(strContains (upperStr q) t))

/-- Modelled from the spec: mutation keywords whose presence disqualifies
a statement from the read-only classification. -/
def mutationKeywords : List String :=
  ["INSERT", "UPDATE", "DELETE", "MERGE", "TRUNCATE", "DROP", "ALTER", "CREATE", "EXEC"]

/-- Modelled from the spec: a statement is read-only when it lexically
starts with SELECT after trimming and embeds no mutation keyword. -/
def isReadOnlyStatement (q : String) : Bool :=
  listStartsWith (jsTrimChars (upperStr q).toList) "SELECT".toList &&
  mutationKeywords.all (fun t => !(strContains (upperStr q) t))

/-- The shaped result of a query: row set and rows-affected counts. -/
structure QueryResult where
  recordset : List (List (String × String))
  rowsAffected : List Int
deriving DecidableEq

/-- A cache key: normalized statement text plus a stable serialization of
the parameter bindings. -/
abbrev CacheKey := String × List (String × String)

/-- Name-sorted (hence binding-order-independent) serialization of the
named parameters. -/
def sortBindings (ps : List (String × String)) : List (String × String) :=
  List.insertionSort (fun a b => a.1 ≤ b.1) ps

/-- Modelled from the spec: the cache key of a request. -/
def cacheKey (stmt : String) (ps : List (String × String)) : CacheKey :=
  (String.mk (jsTrimChars stmt.toList), sortBindings ps)

/-- The fixed TTL: five minutes, in milliseconds. -/
def cacheTtlMs : Nat := 5 * 60 * 1000

/-- One cache entry: key, result snapshot and insertion timestamp. -/
structure CacheEntry where
  key : CacheKey
  result : QueryResult
  insertedAt : Nat
deriving DecidableEq

/-- Modelled from the spec: lookup with lazy expiry — a present entry is a
hit while `now` is within TTL of its insertion, and is evicted (treated
as a miss) once the TTL has elapsed. -/
def cacheGet (c : List CacheEntry) (k : CacheKey) (now : Nat) :
    Option QueryResult × List CacheEntry :=
  match c.find? (fun e => e.key == k) with
  | none => (none, c)
  | some e =>
    if now < e.insertedAt + cacheTtlMs then (some e.result, c)
    else (none, c.filter (fun e2 => !(e2.key == k)))

/-- Modelled from the spec: population replaces any entry with the same
key; entries are never mutated in place. -/
def cachePut (c : List CacheEntry) (k : CacheKey) (res : QueryResult) (now : Nat) :
    List CacheEntry :=
  { key := k, result := res, insertedAt := now } :: c.filter (fun e => !(e.key == k))

/-- Modelled from the spec: the explicit clear operation. -/
def cacheClear (_c : List CacheEntry) : List CacheEntry := []

/-- Modelled from the spec: the ad hoc execution pipeline of execute_query
in the v2.0.x line (spec 4.5): StatementGuard first, then cache lookup for
read-only statements (a hit returns with no driver interaction), then the
driver round-trip and cache population.  `driverResult` stands for the
row set the external driver would produce for this call. -/
def executeQueryPipeline (cache : List CacheEntry) (stmt : String)
    (ps : List (String × String)) (now : Nat) (driverResult : QueryResult) :
    Except String QueryResult × List DriverEv × List CacheEntry :=
  if !checkStatement stmt then
    (Except.error "Statement blocked by security validation", [], cache)
  else if isReadOnlyStatement stmt then
    match cacheGet cache (cacheKey stmt ps) now with
    | (some res, c2) => (Except.ok res, [], c2)
    | (none, c2) =>
      (Except.ok driverResult,
        DriverEv.request :: (ps.map fun kv => DriverEv.input kv.1 kv.2) ++
          [DriverEv.query stmt],
        cachePut c2 (cacheKey stmt ps) driverResult now)
  else
    (Except.ok driverResult,
      DriverEv.request :: (ps.map fun kv => DriverEv.input kv.1 kv.2) ++
        [DriverEv.query stmt],
      cache)

/-- Equality on driver outcomes is decidable (used by concrete witnesses). -/
instance {ε α : Type} [DecidableEq ε] [DecidableEq α] : DecidableEq (Except ε α) := fun a b =>
  match a, b with
  | Except.error e1, Except.error e2 =>
    if h : e1 = e2 then isTrue (by rw [h])
    else isFalse (fun hh => h (Except.error.injEq e1 e2 ▸ congrArg id hh |> fun x => by
      cases hh; rfl))
  | Except.error _, Except.ok _ => isFalse (fun hh => Except.noConfusion hh)
  | Except.ok _, Except.error _ => isFalse (fun hh => Except.noConfusion hh)
  | Except.ok v1, Except.ok v2 =>
    if h : v1 = v2 then isTrue (by rw [h])
    else isFalse (fun hh => h (by cases hh; rfl))

/-! # Claim theorems -/

/-- Claim C4: the configuration built by connect_database is sourced
exclusively from the process environment — for any two tool-call argument
records the constructed config (server, database, user, password, port,
flags, timeouts) is identical, i.e. caller-supplied credentials are never
used. -/
theorem connect_config_env_only :
    ∀ (env : ProcessEnv) (a1 a2 : ToolArgs),
      connectDatabaseConfig env a1 = connectDatabaseConfig env a2 := by
  intro env a1 a2
  rfl

/-- Claim C6: identifier validation is exactly characterized by the regex
`^[A-Za-z0-9_]+$` — a string passes `validateTableName` precisely when it
matches; any string containing a character outside the class is rejected
with the descriptive error; a passing name is returned unchanged (no
sanitization or escaping); the schema-name validator applies the same
characterization. -/
theorem validateIdentifier_regex_characterization :
    ∀ s : String,
      (validateTableName s = Except.ok s ↔ tableNamePatternTest s = true) ∧
      ((∃ c ∈ s.toList, isIdChar c = false) →
        validateTableName s =
          Except.error
            "Invalid table name. Only letters, numbers, and underscores are allowed.") ∧
      (∀ r, validateTableName s = Except.ok r → r = s) ∧
      (validateSchemaName s = Except.ok s ↔ tableNamePatternTest s = true) := by
  intro s
  have hbadOf : (∃ c ∈ s.toList, isIdChar c = false) → tableNamePatternTest s = false := by
    rintro ⟨c, hc, hbad⟩
    apply Bool.eq_false_iff.mpr
    intro htrue
    simp only [tableNamePatternTest, Bool.and_eq_true, List.all_eq_true] at htrue
    have h2 := htrue.2 c hc
    rw [hbad] at h2
    cases h2
  refine ⟨?_, ?_, ?_, ?_⟩
  · constructor
    · intro h
      unfold validateTableName at h
      split at h
      · assumption
      · cases h
    · intro h
      simp [validateTableName, h]
  · intro hex
    simp [validateTableName, hbadOf hex]
  · intro r h
    unfold validateTableName at h
    split at h
    · injection h with h1
      exact h1.symm
    · cases h
  · constructor
    · intro h
      unfold validateSchemaName at h
      split at h
      · assumption
      · cases h
    · intro h
      simp [validateSchemaName, h]

/-- Concrete witness for C6: `Orders` passes both directions of the
characterization and `Orders;--` (which contains `;`) is rejected with
the descriptive message. -/
theorem validateIdentifier_regex_characterization_witness :
    validateTableName "Orders" = Except.ok "Orders" ∧
    validateTableName "Orders;--" =
      Except.error "Invalid table name. Only letters, numbers, and underscores are allowed." :=
  ⟨(validateIdentifier_regex_characterization "Orders").1.mpr (by decide),
   (validateIdentifier_regex_characterization "Orders;--").2.1
     ⟨';', by decide, by decide⟩⟩

/-- Claim C9: a get_table_data call whose table name fails identifier
validation is rejected by the zod input schema with a validation error;
the handler never runs, so the driver sees no request, no parameter
binding and no query, and no connection is opened as a consequence of the
call (the empty trace holds for any pool state). -/
theorem get_table_data_invalid_name_no_driver (poolPresent : Bool)
    (r : GetTableDataRawArgs) (h : tableNamePatternTest r.tableName = false) :
    getTableDataCall poolPresent r =
      (Except.error "String must contain at least 1 character(s)", ([] : List DriverEv)) ∨
    getTableDataCall poolPresent r =
      (Except.error "Table name can only contain letters, numbers, and underscores",
        ([] : List DriverEv)) := by
  unfold getTableDataCall parseGetTableDataArgs
  by_cases he : r.tableName.toList.isEmpty
  · left
    have he' : r.tableName.data = [] := by simpa [List.isEmpty_iff] using he
    simp [he']
  · right
    have he' : ¬r.tableName.data = [] := by simpa [List.isEmpty_iff] using he
    simp [he', h]

/-- Concrete witness for C9: the scenario table name `Orders;--` with a
live pool returns the zod validation error with an empty driver trace. -/
theorem get_table_data_invalid_name_no_driver_witness :
    getTableDataCall true
        { tableName := "Orders;--", schemaName := some "dbo", limit := some 5,
          offset := some 0, whereClause := none, orderBy := none, parameters := none } =
      (Except.error "String must contain at least 1 character(s)", ([] : List DriverEv)) ∨
    getTableDataCall true
        { tableName := "Orders;--", schemaName := some "dbo", limit := some 5,
          offset := some 0, whereClause := none, orderBy := none, parameters := none } =
      (Except.error "Table name can only contain letters, numbers, and underscores",
        ([] : List DriverEv)) :=
  get_table_data_invalid_name_no_driver true
    { tableName := "Orders;--", schemaName := some "dbo", limit := some 5,
      offset := some 0, whereClause := none, orderBy := none, parameters := none }
    (by decide)

/-- Claim C10: when connect fails after pool creation, the failure handler
restores a clean disconnected state before propagating the error: both
the pool handle and the stored config are reset to null, and a subsequent
connection_status reports connected false with the placeholder server and
database fields, for every driver flag function. -/
theorem connect_failure_resets_state :
    ∀ (st : ConnState) (cfg : DatabaseConfig) (h : Nat),
      (connectStep st cfg h false).1 = { pool := none, config := none } ∧
      (connectStep st cfg h false).2.2 = Except.error "Database connection failed" ∧
      ∀ connFlag, connectionStatus (connectStep st cfg h false).1 connFlag =
        { connected := false, server := "Not configured", database := "Not specified",
          port := "Not specified" } := by
  intro st cfg h
  refine ⟨rfl, rfl, fun connFlag => rfl⟩

/-- Claim C7: ORDER BY validation accepts exactly the full strings forming
a comma-separated list of items over the bracketed-or-plain dotted
identifier character class, each optionally suffixed with ASC or DESC
case-insensitively; `col1 ASC, col2` and `[col] DESC` pass, while
`col; DROP TABLE x` fails. -/
theorem orderBy_validation_grammar :
    (∀ s : String, orderByPatternTest s = true ↔ OrderByList s.toList) ∧
    orderByPatternTest "col1 ASC, col2" = true ∧
    orderByPatternTest "[col] DESC" = true ∧
    orderByPatternTest "col; DROP TABLE x" = false :=
  ⟨orderByPatternTest_iff, by decide, by decide, by decide⟩

/-- Bounds carried by a successful zod parse of the limit field. -/
theorem parseLimitField_ok {v : Option Int} {n : Int}
    (h : parseLimitField v = Except.ok n) : 1 ≤ n ∧ n ≤ 10000 := by
  cases v with
  | none =>
    simp only [parseLimitField] at h
    injection h with h1
    omega
  | some w =>
    simp only [parseLimitField] at h
    split at h
    · cases h
    · split at h
      · cases h
      · rename_i h1 h2
        injection h with h3
        omega

/-- Bound carried by a successful zod parse of the offset field. -/
theorem parseOffsetField_ok {v : Option Int} {n : Int}
    (h : parseOffsetField v = Except.ok n) : 0 ≤ n := by
  cases v with
  | none =>
    simp only [parseOffsetField] at h
    injection h with h1
    omega
  | some w =>
    simp only [parseOffsetField] at h
    split at h
    · cases h
    · rename_i h1
      injection h with h2
      omega

/-- Grammar fact carried by a successful zod parse of the schema field. -/
theorem parseSchemaField_ok {v : Option String} {sn : String}
    (h : parseSchemaField v = Except.ok sn) : tableNamePatternTest sn = true := by
  cases v with
  | none =>
    simp only [parseSchemaField] at h
    injection h with h1
    rw [← h1]
    decide
  | some s0 =>
    simp only [parseSchemaField] at h
    split at h
    · cases h
    · rename_i hs0
      injection h with h1
      rw [← h1]
      simpa using hs0

/-- Identifier facts carried by a successful zod parse. -/
theorem parseGetTableDataArgs_ok {r : GetTableDataRawArgs} {a : GetTableDataArgs}
    (h : parseGetTableDataArgs r = Except.ok a) :
    tableNamePatternTest a.tableName = true ∧ tableNamePatternTest a.schemaName = true ∧
    parseLimitField r.limit = Except.ok a.limit ∧
    parseOffsetField r.offset = Except.ok a.offset := by
  unfold parseGetTableDataArgs at h
  split at h
  · cases h
  · split at h
    · cases h
    · rename_i hempty htest
      split at h
      · cases h
      · rename_i sn hsn
        split at h
        · cases h
        · rename_i lim hlim
          split at h
          · cases h
          · rename_i off hoff
            injection h with h1
            subst h1
            exact ⟨by simpa using htest, parseSchemaField_ok hsn, hlim, hoff⟩

/-- Claim C8: every valid get_table_data request yields a statement that
ends with an ORDER BY clause — the caller's validated orderBy, or the
stable default `(SELECT NULL)` — followed by
` OFFSET <offset> ROWS FETCH NEXT <limit> ROWS ONLY`, where limit and
offset are integers bounds-checked before interpolation
(1 ≤ limit ≤ 10000, 0 ≤ offset), never uninspected strings. -/
theorem get_table_data_pagination_shape :
    ∀ (r : GetTableDataRawArgs) (a : GetTableDataArgs),
      parseGetTableDataArgs r = Except.ok a →
      (1 ≤ a.limit ∧ a.limit ≤ 10000 ∧ 0 ≤ a.offset) ∧
      ∀ (poolPresent : Bool) (q : String) (evs : List DriverEv),
        getTableDataHandler poolPresent a = (Except.ok q, evs) →
        ∃ base ob,
          q = base ++ (" ORDER BY " ++ (ob ++ (" OFFSET " ++ (toString a.offset ++
            (" ROWS FETCH NEXT " ++ (toString a.limit ++ " ROWS ONLY")))))) ∧
          ((a.orderBy = none ∧ ob = "(SELECT NULL)") ∨
           (a.orderBy = some ob ∧ orderByPatternTest ob = true)) := by
  intro r a hpa
  obtain ⟨htab, hsch, hlim, hoff⟩ := parseGetTableDataArgs_ok hpa
  obtain ⟨hl1, hl2⟩ := parseLimitField_ok hlim
  have ho1 := parseOffsetField_ok hoff
  refine ⟨⟨hl1, hl2, ho1⟩, ?_⟩
  intro poolPresent q evs hq
  unfold getTableDataHandler at hq
  split at hq
  · cases hq
  · split at hq
    · cases hq
    · split at hq
      · cases hq
      · split at hq
        · rename_i ob hob
          split at hq
          · cases hq
          · rename_i hobtest
            injection hq with h1 h2
            injection h1 with h1
            refine ⟨getTableDataQuery1 a, ob, ?_, Or.inr ⟨hob, by simpa using hobtest⟩⟩
            rw [← h1]
            simp [pageTail, String.append_assoc]
        · rename_i hob
          injection hq with h1 h2
          injection h1 with h1
          refine ⟨getTableDataQuery1 a, "(SELECT NULL)", ?_, Or.inl ⟨hob, rfl⟩⟩
          rw [← h1, String.append_assoc]
          congr 1
          simp only [pageTail, String.append_assoc]
          rw [show (" ORDER BY (SELECT NULL)" : String) =
            " ORDER BY " ++ "(SELECT NULL)" from rfl, String.append_assoc]

set_option maxRecDepth 8000 in
/-- Concrete witness for C8: the request `Orders`/`dbo`, limit 5, offset 0,
orderBy `col1 ASC, col2` parses, is bounds-checked, and the built
statement has the required ORDER BY/OFFSET/FETCH shape. -/
theorem get_table_data_pagination_shape_witness :
    (1 ≤ (5 : Int) ∧ (5 : Int) ≤ 10000 ∧ 0 ≤ (0 : Int)) ∧
    ∃ base ob,
      "SELECT * FROM [dbo].[Orders] ORDER BY col1 ASC, col2 OFFSET 0 ROWS FETCH NEXT 5 ROWS ONLY" =
        base ++ (" ORDER BY " ++ (ob ++ (" OFFSET " ++ (toString (0 : Int) ++
          (" ROWS FETCH NEXT " ++ (toString (5 : Int) ++ " ROWS ONLY")))))) ∧
      (((some "col1 ASC, col2" : Option String) = none ∧ ob = "(SELECT NULL)") ∨
       ((some "col1 ASC, col2" : Option String) = some ob ∧
         orderByPatternTest ob = true)) := by
  have h := get_table_data_pagination_shape
    { tableName := "Orders", schemaName := some "dbo", limit := some 5, offset := some 0,
      whereClause := none, orderBy := some "col1 ASC, col2", parameters := none }
    { tableName := "Orders", schemaName := "dbo", limit := 5, offset := 0,
      whereClause := none, orderBy := some "col1 ASC, col2", parameters := none }
    (by decide)
  exact ⟨h.1, h.2 true
    "SELECT * FROM [dbo].[Orders] ORDER BY col1 ASC, col2 OFFSET 0 ROWS FETCH NEXT 5 ROWS ONLY"
    [DriverEv.request,
     DriverEv.query
       "SELECT * FROM [dbo].[Orders] ORDER BY col1 ASC, col2 OFFSET 0 ROWS FETCH NEXT 5 ROWS ONLY"]
    (by decide)⟩

set_option maxRecDepth 20000 in
/-- Counterexample to claim C3 as stated: the engine does not validate
every interpolated name fragment.  get_schema interpolates the caller's
schemaName into the executed statement with no identifier validation —
the fragment `x; DROP TABLE Students; --`, which does not match
`^[A-Za-z0-9_]+$`, reaches the driver verbatim — and execute_procedure
likewise executes `[dbo].[sp_who; --]` built from an unvalidated
procedure name. -/
theorem identifier_validation_not_universal_cex :
    tableNamePatternTest "x; DROP TABLE Students; --" = false ∧
    (getSchemaCall true SchemaObjectType.tables (some "x; DROP TABLE Students; --")).2 =
      [DriverEv.request,
       DriverEv.query
         (getSchemaQuery SchemaObjectType.tables (some "x; DROP TABLE Students; --"))] ∧
    strContains (getSchemaQuery SchemaObjectType.tables (some "x; DROP TABLE Students; --"))
      "x; DROP TABLE Students; --" = true ∧
    tableNamePatternTest "sp_who; --" = false ∧
    executeProcedureCall true "sp_who; --" "dbo" none =
      (Except.ok "[dbo].[sp_who; --]",
       [DriverEv.request, DriverEv.executeProc "[dbo].[sp_who; --]"]) :=
  ⟨by decide, by decide, by decide, by decide, by decide⟩

/-- Amended C3: only the get_table_data path validates its schema and
table fragments against `^[A-Za-z0-9_]+$` before interpolation;
get_schema's schemaName filter and execute_procedure's schema/procedure
names are interpolated into the executed statement verbatim, with no
identifier validation. -/
theorem identifier_validation_scope :
    (∀ (r : GetTableDataRawArgs) (a : GetTableDataArgs),
      parseGetTableDataArgs r = Except.ok a →
      tableNamePatternTest a.tableName = true ∧
      tableNamePatternTest a.schemaName = true) ∧
    (∀ s : String, ∃ u v : String,
      getSchemaQuery SchemaObjectType.tables (some s) = u ++ (s ++ v)) ∧
    (∀ schemaName procedureName : String,
      executeProcedureStatement schemaName procedureName =
        "[" ++ schemaName ++ "].[" ++ procedureName ++ "]") := by
  refine ⟨?_, ?_, fun _ _ => rfl⟩
  · intro r a h
    exact ⟨(parseGetTableDataArgs_ok h).1, (parseGetTableDataArgs_ok h).2.1⟩
  · intro s
    refine ⟨"\n              SELECT \n                TABLE_SCHEMA,\n                TABLE_NAME,\n                TABLE_TYPE,\n                'table' as OBJECT_TYPE\n              FROM INFORMATION_SCHEMA.TABLES\n              " ++ "WHERE TABLE_SCHEMA = '",
      "'" ++ ("\n            " ++ " ORDER BY TABLE_SCHEMA, TABLE_NAME"), ?_⟩
    show ("" ++ tablesBlock (some s)) ++ " ORDER BY TABLE_SCHEMA, TABLE_NAME" = _
    simp only [tablesBlock, schemaFilterTables, String.empty_append, String.append_assoc]

/-- Concrete witness for the amended C3: the validated get_table_data
fragments of a successful parse match the identifier grammar. -/
theorem identifier_validation_scope_witness :
    tableNamePatternTest "Orders" = true ∧ tableNamePatternTest "dbo" = true :=
  identifier_validation_scope.1
    { tableName := "Orders", schemaName := some "dbo", limit := some 5, offset := some 0,
      whereClause := none, orderBy := none, parameters := none }
    { tableName := "Orders", schemaName := "dbo", limit := 5, offset := 0,
      whereClause := none, orderBy := none, parameters := none }
    (by decide)

/-- Claim C5 (ensureConnected spec-modelled, connect from the source):
ensureConnected is idempotent under an unchanged configuration — in the
Connected state with an equal stored config it returns the existing pool
handle with no driver interaction, so two consecutive calls with the same
config perform exactly one underlying connect. -/
theorem ensureConnected_idempotent :
    (∀ (st : ConnState) (cfg : DatabaseConfig) (n : Nat) (b : Bool) (h : Nat),
      st.pool = some h → st.config = some cfg →
      ensureConnected st cfg n b = (st, [], Except.ok h)) ∧
    (∀ (cfg : DatabaseConfig) (n1 n2 : Nat) (b2 : Bool),
      ensureConnected { pool := none, config := none } cfg n1 true =
        ({ pool := some n1, config := some cfg },
         [PoolEv.createPool n1 cfg, PoolEv.connectOk n1], Except.ok n1) ∧
      ensureConnected { pool := some n1, config := some cfg } cfg n2 b2 =
        ({ pool := some n1, config := some cfg }, [], Except.ok n1)) := by
  constructor
  · intro st cfg n b h hp hc
    cases st with
    | mk pool config =>
      simp only at hp hc
      subst hp
      subst hc
      simp [ensureConnected]
  · intro cfg n1 n2 b2
    constructor
    · rfl
    · simp [ensureConnected]

/-- Concrete witness for C5: an already-connected state with the same
stored config returns the stored handle 7 untouched, with an empty
driver trace. -/
theorem ensureConnected_idempotent_witness :
    ensureConnected
        { pool := some 7,
          config := some ⟨"srv", some "db", none, none, 1433, true, 30000, 30000⟩ }
        ⟨"srv", some "db", none, none, 1433, true, 30000, 30000⟩ 8 true =
      ({ pool := some 7,
         config := some ⟨"srv", some "db", none, none, 1433, true, 30000, 30000⟩ },
       [], Except.ok 7) :=
  ensureConnected_idempotent.1
    { pool := some 7,
      config := some ⟨"srv", some "db", none, none, 1433, true, 30000, 30000⟩ }
    ⟨"srv", some "db", none, none, 1433, true, 30000, 30000⟩ 8 true 7 rfl rfl

/-- Claim C1 (StatementGuard modelled from the spec): a raw statement
containing a blocked server-administration token such as SHUTDOWN or
XP_CMDSHELL in any case combination is rejected by the execute_query
pipeline before any driver interaction (empty driver trace, cache
untouched), while statements free of every denied token pass the guard. -/
theorem execute_query_guard :
    (∀ (q : String) (cache : List CacheEntry) (ps : List (String × String)) (now : Nat)
        (res : QueryResult),
      strContains (upperStr q) "SHUTDOWN" = true →
      executeQueryPipeline cache q ps now res =
        (Except.error "Statement blocked by security validation", [], cache)) ∧
    (∀ (q : String) (cache : List CacheEntry) (ps : List (String × String)) (now : Nat)
        (res : QueryResult),
      strContains (upperStr q) "XP_CMDSHELL" = true →
      executeQueryPipeline cache q ps now res =
        (Except.error "Statement blocked by security validation", [], cache)) ∧
    (∀ q : String, (∀ t ∈ deniedTokens, strContains (upperStr q) t = false) →
      checkStatement q = true) := by
  have hrej : ∀ q : String, checkStatement q = false →
      ∀ (cache : List CacheEntry) (ps : List (String × String)) (now : Nat)
        (res : QueryResult),
      executeQueryPipeline cache q ps now res =
        (Except.error "Statement blocked by security validation", [], cache) := by
    intro q hq cache ps now res
    simp [executeQueryPipeline, hq]
  refine ⟨?_, ?_, ?_⟩
  · intro q cache ps now res h
    exact hrej q (by simp [checkStatement, deniedTokens, h]) cache ps now res
  · intro q cache ps now res h
    exact hrej q (by simp [checkStatement, deniedTokens, h]) cache ps now res
  · intro q h
    simp only [checkStatement, List.all_eq_true]
    intro t ht
    rw [h t ht]
    rfl

/-- Concrete witness for C1: `shutdown with nowait` (lower case) and
`EXEC xp_cmdshell 'dir'` (mixed case) are rejected with no driver trace,
while plain DML/DDL statements pass the guard. -/
theorem execute_query_guard_witness :
    executeQueryPipeline [] "shutdown with nowait" [] 0 ⟨[], []⟩ =
      (Except.error "Statement blocked by security validation", [], []) ∧
    executeQueryPipeline [] "EXEC xp_cmdshell 'dir'" [] 0 ⟨[], []⟩ =
      (Except.error "Statement blocked by security validation", [], []) ∧
    checkStatement "SELECT * FROM Users" = true ∧
    checkStatement "INSERT INTO Orders VALUES (1)" = true ∧
    checkStatement "DROP TABLE Archive" = true ∧
    checkStatement "CREATE TABLE T (Id INT)" = true :=
  ⟨execute_query_guard.1 "shutdown with nowait" [] [] 0 ⟨[], []⟩ (by decide),
   execute_query_guard.2.1 "EXEC xp_cmdshell 'dir'" [] [] 0 ⟨[], []⟩ (by decide),
   execute_query_guard.2.2 "SELECT * FROM Users" (by decide),
   execute_query_guard.2.2 "INSERT INTO Orders VALUES (1)" (by decide),
   execute_query_guard.2.2 "DROP TABLE Archive" (by decide),
   execute_query_guard.2.2 "CREATE TABLE T (Id INT)" (by decide)⟩

/-- Claim C2 (QueryCache modelled from the spec): for a read-only
statement executed twice with identical bindings within the 5-minute TTL,
the second execution is served from the cache with no driver round-trip
and returns the first result; once the TTL has elapsed, or after an
explicit clear, the next execution is a miss that goes to the driver and
repopulates the cache. -/
theorem query_cache_idempotence :
    ∀ (q : String) (ps : List (String × String)) (t0 t1 t2 : Nat)
      (r1 r2 r3 : QueryResult),
      checkStatement q = true →
      isReadOnlyStatement q = true →
      t1 < t0 + cacheTtlMs →
      t0 + cacheTtlMs ≤ t2 →
      executeQueryPipeline [] q ps t0 r1 =
        (Except.ok r1,
         DriverEv.request :: (ps.map fun kv => DriverEv.input kv.1 kv.2) ++
           [DriverEv.query q],
         [{ key := cacheKey q ps, result := r1, insertedAt := t0 }]) ∧
      executeQueryPipeline [{ key := cacheKey q ps, result := r1, insertedAt := t0 }]
          q ps t1 r2 =
        (Except.ok r1, [],
         [{ key := cacheKey q ps, result := r1, insertedAt := t0 }]) ∧
      executeQueryPipeline [{ key := cacheKey q ps, result := r1, insertedAt := t0 }]
          q ps t2 r3 =
        (Except.ok r3,
         DriverEv.request :: (ps.map fun kv => DriverEv.input kv.1 kv.2) ++
           [DriverEv.query q],
         [{ key := cacheKey q ps, result := r3, insertedAt := t2 }]) ∧
      executeQueryPipeline
          (cacheClear [{ key := cacheKey q ps, result := r1, insertedAt := t0 }])
          q ps t1 r3 =
        (Except.ok r3,
         DriverEv.request :: (ps.map fun kv => DriverEv.input kv.1 kv.2) ++
           [DriverEv.query q],
         [{ key := cacheKey q ps, result := r3, insertedAt := t1 }]) := by
  intro q ps t0 t1 t2 r1 r2 r3 hg hro ht1 ht2
  refine ⟨?_, ?_, ?_, ?_⟩
  · simp [executeQueryPipeline, hg, hro, cacheGet, cachePut]
  · simp [executeQueryPipeline, hg, hro, cacheGet, List.find?, ht1]
  · have hne : ¬ t2 < t0 + cacheTtlMs := by omega
    simp [executeQueryPipeline, hg, hro, cacheGet, cachePut, List.find?, hne]
  · simp [executeQueryPipeline, hg, hro, cacheClear, cacheGet, cachePut]

/-- Concrete witness for C2: `SELECT 1 AS x` with binding `x = 1`,
first run at t=0, re-run at t=1000 (hit, no driver event, first result
returned), re-run at t=300000 (expired, driver round-trip) and after a
clear (miss, driver round-trip). -/
theorem query_cache_idempotence_witness :
    executeQueryPipeline [] "SELECT 1 AS x" [("x", "1")] 0 ⟨[[("x", "1")]], [-1]⟩ =
      (Except.ok ⟨[[("x", "1")]], [-1]⟩,
       DriverEv.request ::
         ([("x", "1")].map fun kv => DriverEv.input kv.1 kv.2) ++
           [DriverEv.query "SELECT 1 AS x"],
       [{ key := cacheKey "SELECT 1 AS x" [("x", "1")],
          result := ⟨[[("x", "1")]], [-1]⟩, insertedAt := 0 }]) ∧
    executeQueryPipeline
        [{ key := cacheKey "SELECT 1 AS x" [("x", "1")],
           result := ⟨[[("x", "1")]], [-1]⟩, insertedAt := 0 }]
        "SELECT 1 AS x" [("x", "1")] 1000 ⟨[], []⟩ =
      (Except.ok ⟨[[("x", "1")]], [-1]⟩, [],
       [{ key := cacheKey "SELECT 1 AS x" [("x", "1")],
          result := ⟨[[("x", "1")]], [-1]⟩, insertedAt := 0 }]) ∧
    executeQueryPipeline
        [{ key := cacheKey "SELECT 1 AS x" [("x", "1")],
           result := ⟨[[("x", "1")]], [-1]⟩, insertedAt := 0 }]
        "SELECT 1 AS x" [("x", "1")] 300000 ⟨[], []⟩ =
      (Except.ok ⟨[], []⟩,
       DriverEv.request ::
         ([("x", "1")].map fun kv => DriverEv.input kv.1 kv.2) ++
           [DriverEv.query "SELECT 1 AS x"],
       [{ key := cacheKey "SELECT 1 AS x" [("x", "1")],
          result := ⟨[], []⟩, insertedAt := 300000 }]) ∧
    executeQueryPipeline
        (cacheClear
          [{ key := cacheKey "SELECT 1 AS x" [("x", "1")],
             result := ⟨[[("x", "1")]], [-1]⟩, insertedAt := 0 }])
        "SELECT 1 AS x" [("x", "1")] 1000 ⟨[], []⟩ =
      (Except.ok ⟨[], []⟩,
       DriverEv.request ::
         ([("x", "1")].map fun kv => DriverEv.input kv.1 kv.2) ++
           [DriverEv.query "SELECT 1 AS x"],
       [{ key := cacheKey "SELECT 1 AS x" [("x", "1")],
          result := ⟨[], []⟩, insertedAt := 1000 }]) :=
  query_cache_idempotence "SELECT 1 AS x" [("x", "1")] 0 1000 300000
    ⟨[[("x", "1")]], [-1]⟩ ⟨[], []⟩ ⟨[], []⟩
    (by decide) (by decide) (by decide) (by decide)

end MssqlMcp
